import Mathlib

/-!
Shallow embedding of `csr2d/kick.py` (repository CSR2D) over exact rational
arithmetic.  External collaborators (scipy / numpy routines, and the
repository modules `csr2d.core`, `csr2d.deposit`, `csr2d.central_difference`
whose sources are not available) are represented either by abstract
parameters bundled in the structure `Externals`, or by concrete definitions
modelled from the specification or from the library documentation, as the
doc comment of each definition states.
-/

/-- Abstract interfaces of the external collaborators used by `kick.py`.
`psi_s`, `psi_x`, `psi_x0` model the Green-function evaluators of
`csr2d.core` (the spec treats them as pure scalar physics formulas,
interface only, applied elementwise on grids); `savgol13_2` models
`scipy.signal.savgol_filter(v, 13, 2)`; `gradient` models `numpy.gradient`
with unit spacing; `interp2d` models evaluation of
`scipy.interpolate.RectBivariateSpline(zvec, xvec, grid)` at a point;
`interp1d` models `numpy.interp`; `sqrt` models the real square root and
`rpow23` the real power `t ** (2/3)`; `r_e`, `e_charge`, `mec2` model the
physical constants of `scipy.constants`. -/
structure Externals where
  psi_s : ℚ → ℚ → ℚ → ℚ
  psi_x : ℚ → ℚ → ℚ → ℚ
  psi_x0 : ℚ → ℚ → ℚ → ℚ
  sqrt : ℚ → ℚ
  rpow23 : ℚ → ℚ
  savgol13_2 : (n : ℕ) → (Fin n → ℚ) → Fin n → ℚ
  gradient : (n : ℕ) → (Fin n → ℚ) → Fin n → ℚ
  interp2d : (nz nx : ℕ) → (Fin nz → ℚ) → (Fin nx → ℚ) →
    (Fin nz → Fin nx → ℚ) → ℚ → ℚ → ℚ
  interp1d : (n : ℕ) → (Fin n → ℚ) → (Fin n → ℚ) → ℚ → ℚ
  r_e : ℚ
  e_charge : ℚ
  mec2 : ℚ

/-- Minimum entry of a vector (numpy `v.min()`); 0 for an empty vector. -/
def vmin : (n : ℕ) → (Fin n → ℚ) → ℚ
  | 0, _ => 0
  | 1, v => v ⟨0, Nat.one_pos⟩
  | n + 2, v => min (v ⟨0, by omega⟩) (vmin (n + 1) (fun i => v i.succ))

/-- Maximum entry of a vector (numpy `v.max()`); 0 for an empty vector. -/
def vmax : (n : ℕ) → (Fin n → ℚ) → ℚ
  | 0, _ => 0
  | 1, v => v ⟨0, Nat.one_pos⟩
  | n + 2, v => max (v ⟨0, by omega⟩) (vmax (n + 1) (fun i => v i.succ))

/-- `numpy.linspace a b n` : the vector `a + i * (b - a) / (n - 1)`. -/
def linspace (a b : ℚ) (n : ℕ) : Fin n → ℚ :=
  fun i => a + ((i : ℕ) : ℚ) * ((b - a) / ((n : ℚ) - 1))

/-- Grid bounds of `csr2d_kick_calc`: the caller-supplied limits when
given, otherwise the exact extrema of the coordinate vector
(`kick.py` lines 110-122). -/
def gridBounds (lim : Option (ℚ × ℚ)) (n : ℕ) (v : Fin n → ℚ) : ℚ × ℚ :=
  match lim with
  | some p => p
  | none => (vmin n v, vmax n v)

/-- Cloud-in-cell (bilinear) fraction of a particle at continuous grid
coordinate `u` deposited on node `i`: the tent kernel `max 0 (1 - |u - i|)`. -/
def cic01 (u : ℚ) (i : ℕ) : ℚ := max 0 (1 - |u - (i : ℚ)|)

/-- Modelled from the spec: `csr2d.deposit.histogram_cic_2d` (repository
module not among the available sources).  Cloud-in-cell deposition: each
particle's weight is split across the enclosing grid nodes in proportion to
distance, on the node grid `linspace zmin zmax nz × linspace xmin xmax nx`
with cell sizes `(zmax-zmin)/(nz-1)` and `(xmax-xmin)/(nx-1)`. -/
def histogram_cic_2d (nP : ℕ) (z x w : Fin nP → ℚ) (nz : ℕ)
    (zmin zmax : ℚ) (nx : ℕ) (xmin xmax : ℚ) : Fin nz → Fin nx → ℚ :=
  fun i j => ∑ p : Fin nP,
    w p * cic01 ((z p - zmin) / ((zmax - zmin) / ((nz : ℚ) - 1))) (i : ℕ)
        * cic01 ((x p - xmin) / ((xmax - xmin) / ((nx : ℚ) - 1))) (j : ℕ)

/-- Sum of all entries of a grid (numpy `np.sum`). -/
def gridSum (nz nx : ℕ) (g : Fin nz → Fin nx → ℚ) : ℚ :=
  ∑ i : Fin nz, ∑ j : Fin nx, g i j

/-- Normalized density grid of `csr2d_kick_calc`
(`kick.py` lines 144-146): the deposited charge grid divided by
`norm = np.sum(charge_grid) * dz * dx`. -/
def lambdaGrid (nP : ℕ) (z x w : Fin nP → ℚ) (nz nx : ℕ)
    (zmin zmax xmin xmax dz dx : ℚ) : Fin nz → Fin nx → ℚ :=
  fun i j => histogram_cic_2d nP z x w nz zmin zmax nx xmin xmax i j /
    (gridSum nz nx (histogram_cic_2d nP z x w nz zmin zmax nx xmin xmax) * dz * dx)

/-- Extension of a 2D grid to all integer indices by zero. -/
def extendZero2 (m n : ℕ) (K : Fin m → Fin n → ℚ) (p q : ℤ) : ℚ :=
  if h : 0 ≤ p ∧ p < (m : ℤ) ∧ 0 ≤ q ∧ q < (n : ℤ) then
    K ⟨p.toNat, by omega⟩ ⟨q.toNat, by omega⟩
  else 0

/-- Extension of a 1D vector to all integer indices by zero. -/
def extendZero1 (n : ℕ) (v : Fin n → ℚ) (k : ℤ) : ℚ :=
  if h : 0 ≤ k ∧ k < (n : ℤ) then v ⟨k.toNat, by omega⟩ else 0

/-- Full linear (non-circular) 2D convolution of an `m1 × n1` grid with an
`m2 × n2` kernel, as a function of the full-output integer indices. -/
def conv2dFull (m1 n1 m2 n2 : ℕ) (A : Fin m1 → Fin n1 → ℚ)
    (K : Fin m2 → Fin n2 → ℚ) (p q : ℤ) : ℚ :=
  ∑ k : Fin m1, ∑ l : Fin n1,
    A k l * extendZero2 m2 n2 K (p - (k : ℕ)) (q - (l : ℕ))

/-- Modelled from the scipy documentation:
`scipy.signal.oaconvolve(A, K, mode="same")` computes the linear
(non-circular) 2D convolution and crops it, centered with respect to the
full output, to the shape of the first input: entry `(i, j)` of the output
is entry `(i + (m2-1)/2, j + (n2-1)/2)` of the full convolution. -/
def conv2dSame (m1 n1 m2 n2 : ℕ) (A : Fin m1 → Fin n1 → ℚ)
    (K : Fin m2 → Fin n2 → ℚ) : Fin m1 → Fin n1 → ℚ :=
  fun i j => conv2dFull m1 n1 m2 n2 A K
    (((i : ℕ) : ℤ) + (((m2 - 1) / 2 : ℕ) : ℤ))
    (((j : ℕ) : ℤ) + (((n2 - 1) / 2 : ℕ) : ℤ))

/-- Modelled from the spec: `csr2d.central_difference.central_difference_z`
(repository module not among the available sources): first-order central
finite difference along the `z` axis with spacing `dz`, out-of-range
neighbours taken as zero. -/
def central_difference_z (nz nx : ℕ) (g : Fin nz → Fin nx → ℚ)
    (dz : ℚ) : Fin nz → Fin nx → ℚ :=
  fun i j =>
    (extendZero2 nz nx g (((i : ℕ) : ℤ) + 1) ((j : ℕ) : ℤ) -
      extendZero2 nz nx g (((i : ℕ) : ℤ) - 1) ((j : ℕ) : ℤ)) / (2 * dz)

/-- Column-wise Savitzky-Golay smoothing of the density grid
(`kick.py` line 149): the filter is applied to each fixed-`x` column. -/
def savgolGrid (E : Externals) (nz nx : ℕ) (g : Fin nz → Fin nx → ℚ) :
    Fin nz → Fin nx → ℚ :=
  fun i j => E.savgol13_2 nz (fun k => g k j) i

/-- Kernel-mesh axis of separations `np.arange(-n, n, 1) * d`
(`kick.py` lines 170-171): entry `i` is `(i - n) * d`, zero at index `n`. -/
def kernelAxis (n : ℕ) (d : ℚ) : Fin (2 * n) → ℚ :=
  fun i => (((i : ℕ) : ℚ) - (n : ℚ)) * d

/-- The longitudinal potential kernel grid `psi_s_grid`
(`kick.py` lines 177-178): `psi_s` evaluated at `(Δz / 2 / ρ, Δx / ρ, β)`
over the doubled separation mesh. -/
def psiSGrid (E : Externals) (nz nx : ℕ) (dz dx rho beta : ℚ) :
    Fin (2 * nz) → Fin (2 * nx) → ℚ :=
  fun i j => E.psi_s (kernelAxis nz dz i / 2 / rho) (kernelAxis nx dx j / rho) beta

/-- The raw transverse potential kernel grid before the singular-column
override (`kick.py` lines 179-180). -/
def psiXGridRaw (E : Externals) (nz nx : ℕ) (dz dx rho beta : ℚ) :
    Fin (2 * nz) → Fin (2 * nx) → ℚ :=
  fun i j => E.psi_x (kernelAxis nz dz i / 2 / rho) (kernelAxis nx dx j / rho) beta

/-- The transverse potential kernel grid `psi_x_grid` after the override of
the zero-`x`-separation column (`kick.py` line 183):
`psi_x_grid[:, nx] = psi_x_where_x_equals_zero(zvec2, dx/rho, beta)`. -/
def psiXGrid (E : Externals) (nz nx : ℕ) (dz dx rho beta : ℚ) :
    Fin (2 * nz) → Fin (2 * nx) → ℚ :=
  fun i j =>
    if (j : ℕ) = nx then E.psi_x0 (kernelAxis nz dz i) (dx / rho) beta
    else psiXGridRaw E nz nx dz dx rho beta i j

/-- Wake grid (`kick.py` lines 190-198): same-mode linear convolution of the
smoothed density-derivative grid with a potential kernel grid, scaled by
`(β² / ρ) * (dz * dx)`. -/
def wakeGrid (nz nx : ℕ) (lamP : Fin nz → Fin nx → ℚ)
    (K : Fin (2 * nz) → Fin (2 * nx) → ℚ) (beta rho dz dx : ℚ) :
    Fin nz → Fin nx → ℚ :=
  fun i j => beta ^ 2 / rho * conv2dSame nz nx (2 * nz) (2 * nx) lamP K i j * (dz * dx)

/-- Failure conditions of the embedded entry points: the species assertion
(`kick.py` lines 101 and 280), the crash on a reuse call without supplied
kernel grids (`oaconvolve` applied to `None`), and the Python
`UnboundLocalError` on the debug bundle's kernel axis vectors `zvec2`,
`xvec2` when the kernel-building branch was skipped. -/
inductive CSRError where
  | unsupportedSpecies : CSRError
  | missingPsiGrids : CSRError
  | unboundKernelAxes : CSRError
deriving DecidableEq

/-- Diagnostic bundle returned by `csr2d_kick_calc` when `debug=True`
(`kick.py` lines 221-235). -/
structure DebugInfo (nz nx : ℕ) where
  zvec : Fin nz → ℚ
  xvec : Fin nx → ℚ
  zvec2 : Fin (2 * nz) → ℚ
  xvec2 : Fin (2 * nx) → ℚ
  Ws_grid : Fin nz → Fin nx → ℚ
  Wx_grid : Fin nz → Fin nx → ℚ
  psi_s_grid : Fin (2 * nz) → Fin (2 * nx) → ℚ
  psi_x_grid : Fin (2 * nz) → Fin (2 * nx) → ℚ
  charge_grid : Fin nz → Fin nx → ℚ
  lambda_grid_filtered_prime : Fin nz → Fin nx → ℚ

/-- Result of `csr2d_kick_calc`: the per-particle kick arrays and, when
`debug=True`, the diagnostic bundle. -/
@[ext]
structure KickResult (nP nz nx : ℕ) where
  ddelta_ds : Fin nP → ℚ
  dxp_ds : Fin nP → ℚ
  debugInfo : Option (DebugInfo nz nx)

/-- Negation of the transverse kick array of a result (`kick.py` line 217). -/
def negDxp (nP nz nx : ℕ) (r : KickResult nP nz nx) : KickResult nP nz nx :=
  { r with dxp_ds := fun p => -r.dxp_ds p }

/-- Body of `csr2d_kick_calc` after the sign normalization of `rho` and
`x_b` (`kick.py` lines 109-237): grid setup, deposition, normalization,
smoothing, differentiation, kernel building or reuse, convolution,
interpolation and kick scaling. -/
def csr2dCore (E : Externals) (nP : ℕ) (z_b x_b weight : Fin nP → ℚ)
    (gamma rho : ℚ) (nz nx : ℕ) (zlim xlim : Option (ℚ × ℚ))
    (reuse_psi_grids : Bool)
    (psi_s_grid_old psi_x_grid_old : Option (Fin (2 * nz) → Fin (2 * nx) → ℚ))
    (debug : Bool) : Except CSRError (KickResult nP nz nx) :=
  let zb := gridBounds zlim nP z_b
  let xb := gridBounds xlim nP x_b
  let dz := (zb.2 - zb.1) / ((nz : ℚ) - 1)
  let dx := (xb.2 - xb.1) / ((nx : ℚ) - 1)
  let charge_grid := histogram_cic_2d nP z_b x_b weight nz zb.1 zb.2 nx xb.1 xb.2
  let lambda_grid := lambdaGrid nP z_b x_b weight nz nx zb.1 zb.2 xb.1 xb.2 dz dx
  let lambda_grid_filtered := savgolGrid E nz nx lambda_grid
  let lambda_grid_filtered_prime := central_difference_z nz nx lambda_grid_filtered dz
  let zvec := linspace zb.1 zb.2 nz
  let xvec := linspace xb.1 xb.2 nx
  let beta := E.sqrt (1 - 1 / gamma ^ 2)
  let kernels : Except CSRError
      ((Fin (2 * nz) → Fin (2 * nx) → ℚ) × (Fin (2 * nz) → Fin (2 * nx) → ℚ) ×
        Option ((Fin (2 * nz) → ℚ) × (Fin (2 * nx) → ℚ))) :=
    if reuse_psi_grids then
      match psi_s_grid_old, psi_x_grid_old with
      | some gs, some gx => .ok (gs, gx, none)
      | _, _ => .error .missingPsiGrids
    else
      .ok (psiSGrid E nz nx dz dx rho beta, psiXGrid E nz nx dz dx rho beta,
        some (kernelAxis nz dz, kernelAxis nx dx))
  match kernels with
  | .error e => .error e
  | .ok (gs, gx, axes) =>
    let Ws_grid := wakeGrid nz nx lambda_grid_filtered_prime gs beta rho dz dx
    let Wx_grid := wakeGrid nz nx lambda_grid_filtered_prime gx beta rho dz dx
    let Nb := (∑ p : Fin nP, weight p) / E.e_charge
    let kick_factor := E.r_e * Nb / gamma
    let delta_kick := fun p =>
      kick_factor * E.interp2d nz nx zvec xvec Ws_grid (z_b p) (x_b p)
    let xp_kick := fun p =>
      kick_factor * E.interp2d nz nx zvec xvec Wx_grid (z_b p) (x_b p)
    if debug then
      match axes with
      | none => .error .unboundKernelAxes
      | some ax =>
        .ok ⟨delta_kick, xp_kick,
          some ⟨zvec, xvec, ax.1, ax.2, Ws_grid, Wx_grid, gs, gx,
            charge_grid, lambda_grid_filtered_prime⟩⟩
    else
      .ok ⟨delta_kick, xp_kick, none⟩

/-- Embedding of `csr2d_kick_calc` (`kick.py` lines 21-237): the species
assertion, the sign normalization of a negative bending radius
(`rho = -rho`, `x_b = -x_b` on entry, `xp_kick = -xp_kick` on return),
around the common pipeline `csr2dCore`. -/
def csr2d_kick_calc (E : Externals) (nP : ℕ) (z_b x_b weight : Fin nP → ℚ)
    (gamma rho : ℚ) (nz nx : ℕ) (zlim xlim : Option (ℚ × ℚ))
    (reuse_psi_grids : Bool)
    (psi_s_grid_old psi_x_grid_old : Option (Fin (2 * nz) → Fin (2 * nx) → ℚ))
    (species : String) (debug : Bool) : Except CSRError (KickResult nP nz nx) :=
  if species = "electron" then
    if rho < 0 then
      (csr2dCore E nP z_b (fun p => -x_b p) weight gamma (-rho) nz nx zlim xlim
        reuse_psi_grids psi_s_grid_old psi_x_grid_old debug).map (negDxp nP nz nx)
    else
      csr2dCore E nP z_b x_b weight gamma rho nz nx zlim xlim
        reuse_psi_grids psi_s_grid_old psi_x_grid_old debug
  else .error .unsupportedSpecies

/-- Histogram range of `numpy.histogram` with default `range`: the exact
extrema of the data, widened by 1/2 on each side when they coincide. -/
def histEdgesRange (nP : ℕ) (z : Fin nP → ℚ) : ℚ × ℚ :=
  if vmin nP z = vmax nP z then (vmin nP z - 1 / 2, vmax nP z + 1 / 2)
  else (vmin nP z, vmax nP z)

/-- Modelled from the numpy documentation: `numpy.histogram(z, weights=w,
bins=n)` with the default range.  `n` equal-width bins over the histogram
range; every bin is closed on the left and open on the right except the
last, which is closed on both sides. -/
def np_histogram (nP : ℕ) (z w : Fin nP → ℚ) (n : ℕ) : Fin n → ℚ :=
  let a := (histEdgesRange nP z).1
  let b := (histEdgesRange nP z).2
  let step := (b - a) / (n : ℚ)
  fun i => ∑ p : Fin nP,
    if a + ((i : ℕ) : ℚ) * step ≤ z p ∧
        (z p < a + (((i : ℕ) : ℚ) + 1) * step ∨ ((i : ℕ) = n - 1 ∧ z p ≤ b)) then
      w p
    else 0

/-- The 1D line density of `csr1d_steady_state_kick_calc`
(`kick.py` lines 283-290): the weighted histogram divided by
`dz = (zmax - zmin)/(nz - 1)` and by the total weight. -/
def csr1dDensity (nP : ℕ) (z w : Fin nP → ℚ) (nz : ℕ) : Fin nz → ℚ :=
  fun i => np_histogram nP z w nz i /
    (((histEdgesRange nP z).2 - (histEdgesRange nP z).1) / ((nz : ℚ) - 1)) /
    (∑ p : Fin nP, w p)

/-- Result of `csr1d_steady_state_kick_calc`. -/
structure Csr1dResult (nP nz : ℕ) where
  denergy_ds : Fin nP → ℚ
  zvec : Fin nz → ℚ
  wake : Fin nz → ℚ

/-- Embedding of `csr1d_steady_state_kick_calc` (`kick.py` lines 240-310):
species assertion, weighted 1D histogram density, numerical gradient,
smoothing, the analytic steady-state Green function
`factor * diff(zi ** (2/3))`, full linear convolution truncated to the grid
length, and linear interpolation at the particle positions. -/
def csr1d_steady_state_kick_calc (E : Externals) (nP : ℕ) (z weights : Fin nP → ℚ)
    (nz : ℕ) (rho : ℚ) (species : String) :
    Except CSRError (Csr1dResult nP nz) :=
  if species = "electron" then
    let zmin := (histEdgesRange nP z).1
    let zmax := (histEdgesRange nP z).2
    let dz := (zmax - zmin) / ((nz : ℚ) - 1)
    let zvec := linspace zmin zmax nz
    let Qtot := ∑ p : Fin nP, weights p
    let density := csr1dDensity nP z weights nz
    let densityp := fun i => E.gradient nz density i / dz
    let densityp_filtered := E.savgol13_2 nz densityp
    let factor := -E.rpow23 3 * (Qtot / E.e_charge) * E.r_e * E.mec2 / E.rpow23 rho
    let green : Fin (nz - 1 - 1) → ℚ := fun k =>
      factor * (E.rpow23 ((((k : ℕ) : ℚ) + 1) * dz) - E.rpow23 (((k : ℕ) : ℚ) * dz))
    let wake : Fin nz → ℚ := fun i =>
      ∑ j : Fin nz, densityp_filtered j * extendZero1 (nz - 1 - 1) green (((i : ℕ) : ℤ) - ((j : ℕ) : ℤ))
    let delta_kick := fun p => E.interp1d nz zvec wake (z p)
    .ok ⟨delta_kick, zvec, wake⟩
  else .error .unsupportedSpecies

/-- Trivial instantiation of the external collaborators, used to evaluate
the embedding on concrete inputs. -/
def Etriv : Externals where
  psi_s := fun a b c => a + b + c
  psi_x := fun a b c => a * b + c
  psi_x0 := fun a b c => a + b * c
  sqrt := fun q => q
  rpow23 := fun q => q
  savgol13_2 := fun _ v => v
  gradient := fun _ v => v
  interp2d := fun _ _ _ _ _ zq xq => zq + xq
  interp1d := fun _ _ _ zq => zq
  r_e := 1
  e_charge := 1
  mec2 := 1

/-- Helper: the post-normalization pipeline can fail only with
`missingPsiGrids` or `unboundKernelAxes`, never with the species error. -/
theorem csr2dCore_ne_unsupportedSpecies (E : Externals) (nP : ℕ)
    (z_b x_b weight : Fin nP → ℚ) (gamma rho : ℚ) (nz nx : ℕ)
    (zlim xlim : Option (ℚ × ℚ)) (reuse : Bool)
    (pso pxo : Option (Fin (2 * nz) → Fin (2 * nx) → ℚ)) (debug : Bool) :
    csr2dCore E nP z_b x_b weight gamma rho nz nx zlim xlim reuse pso pxo debug ≠
      Except.error CSRError.unsupportedSpecies := by
  cases reuse <;> cases pso <;> cases pxo <;> cases debug <;>
    simp [csr2dCore]

/-- C8: both entry points assert the species first: any species other than
"electron" yields the unsupported-species error regardless of all other
arguments, and with species "electron" this check never fires (for the 1D
entry point the call in fact always returns a result). -/
theorem species_assertion_first (E : Externals) (nP : ℕ)
    (z_b x_b weight : Fin nP → ℚ) (gamma rho : ℚ) (nz nx : ℕ)
    (zlim xlim : Option (ℚ × ℚ)) (reuse : Bool)
    (pso pxo : Option (Fin (2 * nz) → Fin (2 * nx) → ℚ)) (debug : Bool)
    (nP1 nz1 : ℕ) (z1 w1 : Fin nP1 → ℚ) (rho1 : ℚ) (species : String) :
    (species ≠ "electron" →
      csr2d_kick_calc E nP z_b x_b weight gamma rho nz nx zlim xlim reuse
          pso pxo species debug = Except.error CSRError.unsupportedSpecies ∧
      csr1d_steady_state_kick_calc E nP1 z1 w1 nz1 rho1 species =
          Except.error CSRError.unsupportedSpecies) ∧
    (csr2d_kick_calc E nP z_b x_b weight gamma rho nz nx zlim xlim reuse
        pso pxo "electron" debug ≠ Except.error CSRError.unsupportedSpecies ∧
      ∃ r, csr1d_steady_state_kick_calc E nP1 z1 w1 nz1 rho1 "electron" =
          Except.ok r) := by
  refine ⟨fun hsp => ⟨?_, ?_⟩, ?_, ⟨_, rfl⟩⟩
  · simp [csr2d_kick_calc, hsp]
  · simp [csr1d_steady_state_kick_calc, hsp]
  · intro h
    unfold csr2d_kick_calc at h
    rw [if_pos (rfl : ("electron" : String) = "electron")] at h
    by_cases hr : rho < 0
    · rw [if_pos hr] at h
      rcases hc : csr2dCore E nP z_b (fun p => -x_b p) weight gamma (-rho) nz nx
          zlim xlim reuse pso pxo debug with e | r
      · rw [hc] at h
        simp only [Except.map] at h
        exact csr2dCore_ne_unsupportedSpecies E nP z_b (fun p => -x_b p) weight
          gamma (-rho) nz nx zlim xlim reuse pso pxo debug (hc.trans h)
      · rw [hc] at h
        simp [Except.map] at h
    · rw [if_neg hr] at h
      exact csr2dCore_ne_unsupportedSpecies E nP z_b x_b weight gamma rho nz nx
        zlim xlim reuse pso pxo debug h

/-- Witness for C8 at concrete inputs: species "proton" is rejected by both
entry points, species "electron" passes the check. -/
theorem species_assertion_first_witness :
    ("proton" ≠ "electron" →
      csr2d_kick_calc Etriv 1 (fun _ => 0) (fun _ => 0) (fun _ => 1) 2 1 2 2
          none none false none none "proton" false =
          Except.error CSRError.unsupportedSpecies ∧
      csr1d_steady_state_kick_calc Etriv 1 (fun _ => 0) (fun _ => 1) 2 1 "proton" =
          Except.error CSRError.unsupportedSpecies) ∧
    (csr2d_kick_calc Etriv 1 (fun _ => 0) (fun _ => 0) (fun _ => 1) 2 1 2 2
        none none false none none "electron" false ≠
        Except.error CSRError.unsupportedSpecies ∧
      ∃ r, csr1d_steady_state_kick_calc Etriv 1 (fun _ => 0) (fun _ => 1) 2 1
          "electron" = Except.ok r) :=
  species_assertion_first Etriv 1 (fun _ => 0) (fun _ => 0) (fun _ => 1) 2 1 2 2
    none none false none none false 1 2 (fun _ => 0) (fun _ => 1) 1 "proton"

/-- C10: with `reuse_psi_grids=True` and `debug=True` the call always fails
with the unbound-variable error on the kernel axis vectors `zvec2`, `xvec2`
(they are only assigned on the kernel-building branch), while the same reuse
call with `debug=False` succeeds. -/
theorem csr2d_reuse_debug_unbound (E : Externals) (nP : ℕ)
    (z_b x_b weight : Fin nP → ℚ) (gamma rho : ℚ) (nz nx : ℕ)
    (zlim xlim : Option (ℚ × ℚ))
    (gs gx : Fin (2 * nz) → Fin (2 * nx) → ℚ) :
    csr2d_kick_calc E nP z_b x_b weight gamma rho nz nx zlim xlim true
        (some gs) (some gx) "electron" true =
        Except.error CSRError.unboundKernelAxes ∧
    ∃ r, csr2d_kick_calc E nP z_b x_b weight gamma rho nz nx zlim xlim true
        (some gs) (some gx) "electron" false = Except.ok r := by
  constructor
  · by_cases hr : rho < 0 <;>
      simp [csr2d_kick_calc, hr, csr2dCore, Except.map]
  · by_cases hr : rho < 0
    · simp [csr2d_kick_calc, hr, csr2dCore, Except.map]
    · simp [csr2d_kick_calc, hr, csr2dCore, Except.map]

/-- C7: no degenerate-grid validation exists: a call with zero-width `x`
bounds, and a call with resolution `nz = nx = 1`, both proceed past grid
construction and return ordinarily instead of reporting a degenerate-grid
error (in the Python source the degenerate cell size silently produces
NaN/Inf downstream). -/
theorem csr2d_no_degenerate_grid_validation :
    (∃ r, csr2d_kick_calc Etriv 1 (fun _ => 1 / 2) (fun _ => 2) (fun _ => 1)
        2 1 16 16 (some (0, 1)) (some (2, 2)) false none none "electron" false =
        Except.ok r) ∧
    (∃ r, csr2d_kick_calc Etriv 1 (fun _ => 1 / 2) (fun _ => 2) (fun _ => 1)
        2 1 1 1 none none false none none "electron" false = Except.ok r) :=
  ⟨⟨_, rfl⟩, ⟨_, rfl⟩⟩

/-- Negating the transverse kick twice is the identity on results. -/
theorem negDxp_negDxp (nP nz nx : ℕ) (r : KickResult nP nz nx) :
    negDxp nP nz nx (negDxp nP nz nx r) = r := by
  cases r with
  | mk d x b => simp [negDxp]

/-- C2: sign-convention round-trip: replacing `rho` by `-rho` and every
`x_b` by `-x_b`, then negating the returned `dxp_ds`, reproduces the
original-orientation result exactly (for any nonzero bending radius). -/
theorem csr2d_sign_convention_roundtrip (E : Externals) (nP : ℕ)
    (z_b x_b weight : Fin nP → ℚ) (gamma rho : ℚ) (nz nx : ℕ)
    (zlim xlim : Option (ℚ × ℚ)) (reuse : Bool)
    (pso pxo : Option (Fin (2 * nz) → Fin (2 * nx) → ℚ))
    (species : String) (debug : Bool) (h : rho ≠ 0) :
    (csr2d_kick_calc E nP z_b (fun p => -x_b p) weight gamma (-rho) nz nx
        zlim xlim reuse pso pxo species debug).map (negDxp nP nz nx) =
    csr2d_kick_calc E nP z_b x_b weight gamma rho nz nx zlim xlim reuse
      pso pxo species debug := by
  by_cases hsp : species = "electron"
  · unfold csr2d_kick_calc
    rw [if_pos hsp, if_pos hsp]
    rcases lt_trichotomy rho 0 with hr | hr | hr
    · have h1 : ¬(-rho < 0) := by linarith
      rw [if_neg h1, if_pos hr]
    · exact absurd hr h
    · have h1 : -rho < 0 := by linarith
      have h2 : ¬(rho < 0) := by linarith
      rw [if_pos h1, if_neg h2]
      simp only [neg_neg]
      generalize csr2dCore E nP z_b x_b weight gamma rho nz nx zlim xlim reuse
        pso pxo debug = X
      cases X with
      | error e => rfl
      | ok r => simp [Except.map, negDxp_negDxp]
  · simp [csr2d_kick_calc, hsp, Except.map]

/-- Witness for C2 at a concrete bunch and parameter set. -/
theorem csr2d_sign_convention_roundtrip_witness :
    (1 : ℚ) ≠ 0 ∧
    (csr2d_kick_calc Etriv 1 (fun _ => 0) (fun _ => -(0 : ℚ)) (fun _ => 1) 2
        (-1) 2 2 (some (0, 1)) (some (0, 1)) false none none "electron"
        false).map (negDxp 1 2 2) =
    csr2d_kick_calc Etriv 1 (fun _ => 0) (fun _ => (0 : ℚ)) (fun _ => 1) 2 1
      2 2 (some (0, 1)) (some (0, 1)) false none none "electron" false :=
  ⟨by norm_num,
    csr2d_sign_convention_roundtrip Etriv 1 (fun _ => 0) (fun _ => (0 : ℚ))
      (fun _ => 1) 2 1 2 2 (some (0, 1)) (some (0, 1)) false none none
      "electron" false (by norm_num)⟩

/-- C3: kernel-reuse equivalence: a call with `reuse_psi_grids=True`
supplying exactly the kernel grids that a `reuse_psi_grids=False` call with
identical geometry builds returns the same result as the building call. -/
theorem csr2d_reuse_psi_grids_equiv (E : Externals) (nP : ℕ)
    (z_b x_b weight : Fin nP → ℚ) (gamma rho : ℚ) (nz nx : ℕ)
    (zlim xlim : Option (ℚ × ℚ)) (species : String)
    (rhoA : ℚ) (xbA : Fin nP → ℚ) (dzA dxA betaA : ℚ)
    (gs gx : Fin (2 * nz) → Fin (2 * nx) → ℚ)
    (hrho : rhoA = if rho < 0 then -rho else rho)
    (hxb : xbA = if rho < 0 then (fun p => -x_b p) else x_b)
    (hdz : dzA = ((gridBounds zlim nP z_b).2 - (gridBounds zlim nP z_b).1) /
      ((nz : ℚ) - 1))
    (hdx : dxA = ((gridBounds xlim nP xbA).2 - (gridBounds xlim nP xbA).1) /
      ((nx : ℚ) - 1))
    (hbeta : betaA = E.sqrt (1 - 1 / gamma ^ 2))
    (hgs : gs = psiSGrid E nz nx dzA dxA rhoA betaA)
    (hgx : gx = psiXGrid E nz nx dzA dxA rhoA betaA) :
    csr2d_kick_calc E nP z_b x_b weight gamma rho nz nx zlim xlim true
        (some gs) (some gx) species false =
    csr2d_kick_calc E nP z_b x_b weight gamma rho nz nx zlim xlim false
        none none species false := by
  subst hxb hrho hdz hdx hbeta hgs hgx
  by_cases hsp : species = "electron"
  · unfold csr2d_kick_calc
    rw [if_pos hsp, if_pos hsp]
    by_cases hr : rho < 0
    · simp only [if_pos hr]
      rfl
    · simp only [if_neg hr]
      rfl
  · simp [csr2d_kick_calc, hsp]

/-- Witness for C3 at a concrete bunch and geometry. -/
theorem csr2d_reuse_psi_grids_equiv_witness :
    ((1 : ℚ) = if (1 : ℚ) < 0 then -1 else 1) ∧
    ((fun _ : Fin 1 => (0 : ℚ)) =
      if (1 : ℚ) < 0 then (fun p => -(fun _ : Fin 1 => (0 : ℚ)) p)
      else (fun _ : Fin 1 => (0 : ℚ))) ∧
    ((1 : ℚ) = ((gridBounds (some (0, 1)) 1 (fun _ => 0)).2 -
      (gridBounds (some (0, 1)) 1 (fun _ => 0)).1) / ((2 : ℚ) - 1)) ∧
    ((3 / 4 : ℚ) = Etriv.sqrt (1 - 1 / (2 : ℚ) ^ 2)) ∧
    csr2d_kick_calc Etriv 1 (fun _ => 0) (fun _ => 0) (fun _ => 1) 2 1 2 2
        (some (0, 1)) (some (0, 1)) true
        (some (psiSGrid Etriv 2 2 1 1 1 (3 / 4)))
        (some (psiXGrid Etriv 2 2 1 1 1 (3 / 4))) "electron" false =
      csr2d_kick_calc Etriv 1 (fun _ => 0) (fun _ => 0) (fun _ => 1) 2 1 2 2
        (some (0, 1)) (some (0, 1)) false none none "electron" false :=
  ⟨by norm_num, by norm_num, by norm_num [gridBounds], by norm_num [Etriv],
    csr2d_reuse_psi_grids_equiv Etriv 1 (fun _ => 0) (fun _ => 0) (fun _ => 1)
      2 1 2 2 (some (0, 1)) (some (0, 1)) "electron" 1 (fun _ => 0) 1 1 (3 / 4)
      (psiSGrid Etriv 2 2 1 1 1 (3 / 4)) (psiXGrid Etriv 2 2 1 1 1 (3 / 4))
      (by norm_num) (by norm_num) (by norm_num [gridBounds])
      (by norm_num [gridBounds]) (by norm_num [Etriv]) rfl rfl⟩

/-- C4: on the kernel-building branch the potential grids span the doubled
`2nz × 2nx` separation mesh with the zero separation at index `(nz, nx)`;
every entry is the external formula at the scaled separations
`(Δz/(2ρ), Δx/ρ, β)`; afterwards the whole zero-`x`-separation column of
`psi_x_grid` is replaced by `psi_x_where_x_equals_zero` evaluated at the raw
`z` separations and the scaled cell width `dx/ρ`, while `psi_s_grid` keeps
the raw formula everywhere. -/
theorem psi_kernel_grid_construction (E : Externals) (nz nx : ℕ)
    (dz dx rho beta : ℚ) :
    (∀ i : Fin (2 * nz), (i : ℕ) = nz → kernelAxis nz dz i = 0) ∧
    (∀ j : Fin (2 * nx), (j : ℕ) = nx → kernelAxis nx dx j = 0) ∧
    (∀ (i : Fin (2 * nz)) (j : Fin (2 * nx)),
      psiSGrid E nz nx dz dx rho beta i j =
        E.psi_s ((((i : ℕ) : ℚ) - (nz : ℚ)) * dz / (2 * rho))
          ((((j : ℕ) : ℚ) - (nx : ℚ)) * dx / rho) beta) ∧
    (∀ (i : Fin (2 * nz)) (j : Fin (2 * nx)), (j : ℕ) ≠ nx →
      psiXGrid E nz nx dz dx rho beta i j =
        E.psi_x ((((i : ℕ) : ℚ) - (nz : ℚ)) * dz / (2 * rho))
          ((((j : ℕ) : ℚ) - (nx : ℚ)) * dx / rho) beta) ∧
    (∀ (i : Fin (2 * nz)) (j : Fin (2 * nx)), (j : ℕ) = nx →
      psiXGrid E nz nx dz dx rho beta i j =
        E.psi_x0 ((((i : ℕ) : ℚ) - (nz : ℚ)) * dz) (dx / rho) beta) := by
  refine ⟨fun i hi => ?_, fun j hj => ?_, fun i j => ?_,
    fun i j hj => ?_, fun i j hj => ?_⟩
  · simp [kernelAxis, hi]
  · simp [kernelAxis, hj]
  · simp only [psiSGrid, kernelAxis, div_div]
  · simp only [psiXGrid, psiXGridRaw, kernelAxis, if_neg hj, div_div]
  · simp only [psiXGrid, kernelAxis, if_pos hj]

/-- Witness for C4 at a concrete geometry: the center of the axis is at
index `nz`, and the override column of `psi_x_grid` holds the zero-limit
formula. -/
theorem psi_kernel_grid_construction_witness :
    (((⟨1, by norm_num⟩ : Fin (2 * 1)) : ℕ) = 1 ∧
      kernelAxis 1 (5 : ℚ) ⟨1, by norm_num⟩ = 0) ∧
    (((⟨1, by norm_num⟩ : Fin (2 * 1)) : ℕ) = 1 ∧
      psiXGrid Etriv 1 1 5 7 2 (1 / 3) ⟨0, by norm_num⟩ ⟨1, by norm_num⟩ =
        Etriv.psi_x0 ((((0 : ℕ) : ℚ) - (1 : ℚ)) * 5) (7 / 2) (1 / 3)) :=
  ⟨⟨rfl, (psi_kernel_grid_construction Etriv 1 1 5 7 2 (1 / 3)).1
      ⟨1, by norm_num⟩ rfl⟩,
    ⟨rfl, (psi_kernel_grid_construction Etriv 1 1 5 7 2 (1 / 3)).2.2.2.2
      ⟨0, by norm_num⟩ ⟨1, by norm_num⟩ rfl⟩⟩

/-- C5: each wake grid entry is the linear (non-circular) 2D convolution of
the smoothed density-derivative grid (`nz × nx`) with the `2nz × 2nx`
kernel grid, cropped same-mode (centered offset `nz - 1`, `nx - 1`), and
scaled by `β²/ρ · dz · dx`; the wake grids have the `nz × nx` shape of the
density grid by construction. -/
theorem wakeGrid_same_mode_linear_conv (nz nx : ℕ) (hnz : 0 < nz)
    (hnx : 0 < nx) (A : Fin nz → Fin nx → ℚ)
    (K : Fin (2 * nz) → Fin (2 * nx) → ℚ) (beta rho dz dx : ℚ)
    (i : Fin nz) (j : Fin nx) :
    wakeGrid nz nx A K beta rho dz dx i j =
      beta ^ 2 / rho * dz * dx *
        ∑ k : Fin nz, ∑ l : Fin nx, A k l *
          extendZero2 (2 * nz) (2 * nx) K
            (((i : ℕ) : ℤ) + ((nz : ℤ) - 1) - ((k : ℕ) : ℤ))
            (((j : ℕ) : ℤ) + ((nx : ℤ) - 1) - ((l : ℕ) : ℤ)) := by
  unfold wakeGrid conv2dSame conv2dFull
  have h1 : (((2 * nz - 1) / 2 : ℕ) : ℤ) = (nz : ℤ) - 1 := by omega
  have h2 : (((2 * nx - 1) / 2 : ℕ) : ℤ) = (nx : ℤ) - 1 := by omega
  rw [h1, h2]
  ring

/-- Witness for C5 at a concrete grid. -/
theorem wakeGrid_same_mode_linear_conv_witness :
    0 < 1 ∧
    wakeGrid 1 1 (fun _ _ => 2) (fun _ _ => 3) 1 1 1 1 ⟨0, by norm_num⟩
        ⟨0, by norm_num⟩ =
      (1 : ℚ) ^ 2 / 1 * 1 * 1 *
        ∑ k : Fin 1, ∑ l : Fin 1, (fun _ _ => (2 : ℚ)) k l *
          extendZero2 (2 * 1) (2 * 1) (fun _ _ => (3 : ℚ))
            ((((⟨0, by norm_num⟩ : Fin 1) : ℕ) : ℤ) + (((1 : ℕ) : ℤ) - 1) -
              ((k : ℕ) : ℤ))
            ((((⟨0, by norm_num⟩ : Fin 1) : ℕ) : ℤ) + (((1 : ℕ) : ℤ) - 1) -
              ((l : ℕ) : ℤ)) :=
  ⟨by norm_num, wakeGrid_same_mode_linear_conv 1 1 (by norm_num) (by norm_num)
    (fun _ _ => 2) (fun _ _ => 3) 1 1 1 1 ⟨0, by norm_num⟩ ⟨0, by norm_num⟩⟩

/-- Counterexample for C9: for the two-particle bunch `z = (0, 1)` with unit
weights and `nz = 2`, the code's density value at bin 0 is `1/2`, but the
claimed normalization by the histogram bin width `(zmax - zmin)/nz` would
give `1`: the code divides by the grid spacing `(zmax - zmin)/(nz - 1)`,
not by the bin width. -/
theorem csr1dDensity_not_bin_width_normalized :
    csr1dDensity 2 (fun p => if (p : ℕ) = 0 then 0 else 1) (fun _ => 1) 2
        ⟨0, by norm_num⟩ ≠
      np_histogram 2 (fun p => if (p : ℕ) = 0 then 0 else 1) (fun _ => 1) 2
          ⟨0, by norm_num⟩ /
        ((∑ p : Fin 2, (fun _ => (1 : ℚ)) p) *
          (((histEdgesRange 2 (fun p => if (p : ℕ) = 0 then 0 else 1)).2 -
            (histEdgesRange 2 (fun p => if (p : ℕ) = 0 then 0 else 1)).1) /
            (2 : ℚ))) := by
  simp only [csr1dDensity, np_histogram, histEdgesRange, vmin, vmax,
    Fin.sum_univ_two, Fin.succ_mk, min_def, max_def]
  norm_num

/-- C9 as amended: the 1D line density is the weighted histogram normalized
by the total weight and by the grid spacing `dz = (zmax - zmin)/(nz - 1)`
(not by the histogram bin width `(zmax - zmin)/nz`). -/
theorem csr1dDensity_grid_spacing_normalized (nP : ℕ) (z w : Fin nP → ℚ)
    (nz : ℕ) (_hw : 0 < ∑ p : Fin nP, w p) (i : Fin nz) :
    csr1dDensity nP z w nz i =
      np_histogram nP z w nz i /
        ((∑ p : Fin nP, w p) *
          (((histEdgesRange nP z).2 - (histEdgesRange nP z).1) /
            ((nz : ℚ) - 1))) := by
  unfold csr1dDensity
  rw [div_div, mul_comm]

/-- Witness for C9 (amended) at a concrete bunch. -/
theorem csr1dDensity_grid_spacing_normalized_witness :
    (0 < ∑ p : Fin 2, (fun _ => (1 : ℚ)) p) ∧
    csr1dDensity 2 (fun p => if (p : ℕ) = 0 then 0 else 1) (fun _ => 1) 2
        ⟨1, by norm_num⟩ =
      np_histogram 2 (fun p => if (p : ℕ) = 0 then 0 else 1) (fun _ => 1) 2
          ⟨1, by norm_num⟩ /
        ((∑ p : Fin 2, (fun _ => (1 : ℚ)) p) *
          (((histEdgesRange 2 (fun p => if (p : ℕ) = 0 then 0 else 1)).2 -
            (histEdgesRange 2 (fun p => if (p : ℕ) = 0 then 0 else 1)).1) /
            ((2 : ℚ) - 1))) :=
  ⟨by norm_num [Fin.sum_univ_two], csr1dDensity_grid_spacing_normalized 2
    (fun p => if (p : ℕ) = 0 then 0 else 1) (fun _ => 1) 2
    (by norm_num [Fin.sum_univ_two]) ⟨1, by norm_num⟩⟩

/-- Helper: closed form of the pipeline on the kernel-building branch with
`debug=False`: the call succeeds and each kick is the kick factor times the
interpolant of the corresponding wake grid, evaluated at the particle's own
coordinates. -/
theorem csr2dCore_ok_eq (E : Externals) (nP : ℕ) (z_b x_b weight : Fin nP → ℚ)
    (gamma rho : ℚ) (nz nx : ℕ) (zlim xlim : Option (ℚ × ℚ))
    (zminA zmaxA xminA xmaxA dzA dxA betaA kf : ℚ)
    (WsG WxG : Fin nz → Fin nx → ℚ)
    (hzmin : zminA = (gridBounds zlim nP z_b).1)
    (hzmax : zmaxA = (gridBounds zlim nP z_b).2)
    (hxmin : xminA = (gridBounds xlim nP x_b).1)
    (hxmax : xmaxA = (gridBounds xlim nP x_b).2)
    (hdz : dzA = (zmaxA - zminA) / ((nz : ℚ) - 1))
    (hdx : dxA = (xmaxA - xminA) / ((nx : ℚ) - 1))
    (hbeta : betaA = E.sqrt (1 - 1 / gamma ^ 2))
    (hkf : kf = E.r_e * ((∑ p : Fin nP, weight p) / E.e_charge) / gamma)
    (hWs : WsG = wakeGrid nz nx (central_difference_z nz nx (savgolGrid E nz nx
      (lambdaGrid nP z_b x_b weight nz nx zminA zmaxA xminA xmaxA dzA dxA)) dzA)
      (psiSGrid E nz nx dzA dxA rho betaA) betaA rho dzA dxA)
    (hWx : WxG = wakeGrid nz nx (central_difference_z nz nx (savgolGrid E nz nx
      (lambdaGrid nP z_b x_b weight nz nx zminA zmaxA xminA xmaxA dzA dxA)) dzA)
      (psiXGrid E nz nx dzA dxA rho betaA) betaA rho dzA dxA) :
    csr2dCore E nP z_b x_b weight gamma rho nz nx zlim xlim false none none
        false =
      Except.ok ⟨fun p => kf * E.interp2d nz nx (linspace zminA zmaxA nz)
          (linspace xminA xmaxA nx) WsG (z_b p) (x_b p),
        fun p => kf * E.interp2d nz nx (linspace zminA zmaxA nz)
          (linspace xminA xmaxA nx) WxG (z_b p) (x_b p), none⟩ := by
  subst hzmin hzmax hxmin hxmax hdz hdx hbeta hkf hWs hWx
  rfl

/-- C6: with species "electron" (building branch, no debug) the call
returns, for every particle `p`, `ddelta_ds p = kick_factor * Ws_interp
(z_b p) (x_b p)` and `dxp_ds p = ± kick_factor * Wx_interp (z_b p)
(x_b p)`, where `kick_factor = r_e * (Σ weight / e) / γ`, the interpolants
are built over the original (non-doubled) axis vectors, evaluation is at
each particle's exact coordinates (with `x_b` sign-normalized on entry),
and the transverse kick is negated exactly when the bending-radius sign was
flipped; the output arrays are indexed by the same particle index as the
input bunch. -/
theorem csr2d_kick_interpolation_scaling (E : Externals) (nP : ℕ)
    (z_b x_b weight : Fin nP → ℚ) (gamma rho : ℚ) (nz nx : ℕ)
    (zlim xlim : Option (ℚ × ℚ)) (rhoA : ℚ) (xbA : Fin nP → ℚ)
    (zminA zmaxA xminA xmaxA dzA dxA betaA kf : ℚ)
    (WsG WxG : Fin nz → Fin nx → ℚ)
    (hrho : rhoA = if rho < 0 then -rho else rho)
    (hxb : xbA = if rho < 0 then (fun p => -x_b p) else x_b)
    (hzmin : zminA = (gridBounds zlim nP z_b).1)
    (hzmax : zmaxA = (gridBounds zlim nP z_b).2)
    (hxmin : xminA = (gridBounds xlim nP xbA).1)
    (hxmax : xmaxA = (gridBounds xlim nP xbA).2)
    (hdz : dzA = (zmaxA - zminA) / ((nz : ℚ) - 1))
    (hdx : dxA = (xmaxA - xminA) / ((nx : ℚ) - 1))
    (hbeta : betaA = E.sqrt (1 - 1 / gamma ^ 2))
    (hkf : kf = E.r_e * ((∑ p : Fin nP, weight p) / E.e_charge) / gamma)
    (hWs : WsG = wakeGrid nz nx (central_difference_z nz nx (savgolGrid E nz nx
      (lambdaGrid nP z_b xbA weight nz nx zminA zmaxA xminA xmaxA dzA dxA)) dzA)
      (psiSGrid E nz nx dzA dxA rhoA betaA) betaA rhoA dzA dxA)
    (hWx : WxG = wakeGrid nz nx (central_difference_z nz nx (savgolGrid E nz nx
      (lambdaGrid nP z_b xbA weight nz nx zminA zmaxA xminA xmaxA dzA dxA)) dzA)
      (psiXGrid E nz nx dzA dxA rhoA betaA) betaA rhoA dzA dxA) :
    csr2d_kick_calc E nP z_b x_b weight gamma rho nz nx zlim xlim false none
        none "electron" false =
      Except.ok ⟨fun p => kf * E.interp2d nz nx (linspace zminA zmaxA nz)
          (linspace xminA xmaxA nx) WsG (z_b p) (xbA p),
        fun p => (if rho < 0 then -1 else 1) *
          (kf * E.interp2d nz nx (linspace zminA zmaxA nz)
            (linspace xminA xmaxA nx) WxG (z_b p) (xbA p)), none⟩ := by
  unfold csr2d_kick_calc
  rw [if_pos (rfl : ("electron" : String) = "electron")]
  by_cases hr : rho < 0
  · rw [if_pos hr] at hrho hxb
    rw [if_pos hr]
    subst hxb hrho
    rw [csr2dCore_ok_eq E nP z_b (fun p => -x_b p) weight gamma (-rho) nz nx
      zlim xlim zminA zmaxA xminA xmaxA dzA dxA betaA kf WsG WxG hzmin hzmax
      hxmin hxmax hdz hdx hbeta hkf hWs hWx]
    simp only [Except.map, negDxp, if_pos hr]
    rw [Except.ok.injEq, KickResult.mk.injEq]
    refine ⟨rfl, funext fun p => ?_, rfl⟩
    ring
  · rw [if_neg hr] at hrho hxb
    rw [if_neg hr]
    subst hxb hrho
    rw [csr2dCore_ok_eq E nP z_b xbA weight gamma rhoA nz nx zlim xlim zminA
      zmaxA xminA xmaxA dzA dxA betaA kf WsG WxG hzmin hzmax hxmin hxmax hdz
      hdx hbeta hkf hWs hWx]
    simp only [if_neg hr]
    rw [Except.ok.injEq, KickResult.mk.injEq]
    refine ⟨rfl, funext fun p => ?_, rfl⟩
    ring

/-- Witness for C6 at a concrete bunch and geometry. -/
theorem csr2d_kick_interpolation_scaling_witness :
    csr2d_kick_calc Etriv 1 (fun _ => 0) (fun _ => 0) (fun _ => 1) 2 1 2 2
        (some (0, 1)) (some (0, 1)) false none none "electron" false =
      Except.ok ⟨fun _ => (1 / 2 : ℚ) * Etriv.interp2d 2 2 (linspace 0 1 2)
          (linspace 0 1 2) (wakeGrid 2 2 (central_difference_z 2 2
            (savgolGrid Etriv 2 2 (lambdaGrid 1 (fun _ => 0) (fun _ => 0)
              (fun _ => 1) 2 2 0 1 0 1 1 1)) 1)
            (psiSGrid Etriv 2 2 1 1 1 (3 / 4)) (3 / 4) 1 1 1) 0 0,
        fun _ => (if (1 : ℚ) < 0 then -1 else 1) *
          ((1 / 2 : ℚ) * Etriv.interp2d 2 2 (linspace 0 1 2)
            (linspace 0 1 2) (wakeGrid 2 2 (central_difference_z 2 2
              (savgolGrid Etriv 2 2 (lambdaGrid 1 (fun _ => 0) (fun _ => 0)
                (fun _ => 1) 2 2 0 1 0 1 1 1)) 1)
              (psiXGrid Etriv 2 2 1 1 1 (3 / 4)) (3 / 4) 1 1 1) 0 0),
        none⟩ :=
  csr2d_kick_interpolation_scaling Etriv 1 (fun _ => 0) (fun _ => 0)
    (fun _ => 1) 2 1 2 2 (some (0, 1)) (some (0, 1)) 1 (fun _ => 0) 0 1 0 1
    1 1 (3 / 4) (1 / 2)
    (wakeGrid 2 2 (central_difference_z 2 2 (savgolGrid Etriv 2 2
      (lambdaGrid 1 (fun _ => 0) (fun _ => 0) (fun _ => 1) 2 2 0 1 0 1 1 1)) 1)
      (psiSGrid Etriv 2 2 1 1 1 (3 / 4)) (3 / 4) 1 1 1)
    (wakeGrid 2 2 (central_difference_z 2 2 (savgolGrid Etriv 2 2
      (lambdaGrid 1 (fun _ => 0) (fun _ => 0) (fun _ => 1) 2 2 0 1 0 1 1 1)) 1)
      (psiXGrid Etriv 2 2 1 1 1 (3 / 4)) (3 / 4) 1 1 1)
    (by norm_num) (by norm_num) rfl rfl rfl rfl (by norm_num) (by norm_num)
    (by norm_num [Etriv]) (by norm_num [Etriv, Fin.sum_univ_one]) rfl rfl

/-- A node at distance at least one cell from the particle receives no
cloud-in-cell contribution. -/
theorem cic01_eq_zero {u : ℚ} {i : ℕ} (h : 1 ≤ |u - (i : ℚ)|) :
    cic01 u i = 0 := by
  unfold cic01
  exact max_eq_left (by linarith)

/-- The cloud-in-cell fractions of a particle lying inside the node range
`[0, n-1]` sum to one over the `n` nodes: deposition conserves charge. -/
theorem cic01_sum (n : ℕ) (u : ℚ) (h0 : 0 ≤ u) (h1 : u ≤ (n : ℚ) - 1) :
    ∑ i : Fin n, cic01 u (i : ℕ) = 1 := by
  have hn : 1 ≤ n := by
    rcases Nat.eq_zero_or_pos n with hc | hc
    · subst hc
      norm_num at h1
      linarith
    · exact hc
  rw [Fin.sum_univ_eq_sum_range (fun i => cic01 u i) n]
  set k : ℕ := ⌊u⌋.toNat with hk
  have hfl0 : (0 : ℤ) ≤ ⌊u⌋ := Int.floor_nonneg.mpr h0
  have hkz : (k : ℤ) = ⌊u⌋ := Int.toNat_of_nonneg hfl0
  have hk0 : (k : ℚ) ≤ u := by
    have h := Int.floor_le u
    rw [← hkz] at h
    exact_mod_cast h
  have hk1 : u < (k : ℚ) + 1 := by
    have h := Int.lt_floor_add_one u
    rw [← hkz] at h
    exact_mod_cast h
  have hkn : k ≤ n - 1 := by
    have h2 : (k : ℚ) ≤ (n : ℚ) - 1 := le_trans hk0 h1
    have h3 : (k : ℚ) ≤ ((n - 1 : ℕ) : ℚ) := by
      rw [Nat.cast_sub hn]
      exact_mod_cast h2
    exact_mod_cast h3
  have hklt : k < n := by omega
  by_cases hcase : u = (k : ℚ)
  · have hsum : ∀ i ∈ Finset.range n, cic01 u i =
        if i = k then (1 : ℚ) else 0 := by
      intro i _
      by_cases hik : i = k
      · rw [if_pos hik, hik]
        unfold cic01
        rw [hcase]
        simp
      · rw [if_neg hik]
        apply cic01_eq_zero
        rcases lt_or_gt_of_ne hik with hlt | hgt
        · have hc1 : ((i : ℕ) : ℚ) + 1 ≤ (k : ℚ) := by exact_mod_cast hlt
          rw [abs_of_nonneg (by linarith)]
          linarith
        · have hc1 : (k : ℚ) + 1 ≤ ((i : ℕ) : ℚ) := by exact_mod_cast hgt
          rw [abs_of_nonpos (by linarith)]
          linarith
    rw [Finset.sum_congr rfl hsum, Finset.sum_ite_eq' (Finset.range n) k
      (fun _ => (1 : ℚ))]
    simp [Finset.mem_range, hklt]
  · have ht0 : (k : ℚ) < u := lt_of_le_of_ne hk0 fun h => hcase h.symm
    have hlt2 : k + 1 < n := by
      rcases Nat.lt_or_ge (k + 1) n with hc | hc
      · exact hc
      · exfalso
        have hkeq : k = n - 1 := by omega
        have hq : (k : ℚ) = (n : ℚ) - 1 := by
          rw [hkeq, Nat.cast_sub hn]
          norm_num
        rw [hq] at ht0
        linarith
    have hsum : ∀ i ∈ Finset.range n, cic01 u i =
        (if i = k then 1 - (u - (k : ℚ)) else 0) +
          (if i = k + 1 then u - (k : ℚ) else 0) := by
      intro i _
      rcases Nat.lt_trichotomy i k with hik | hik | hik
      · rw [if_neg (by omega), if_neg (by omega), add_zero]
        apply cic01_eq_zero
        have hc1 : ((i : ℕ) : ℚ) + 1 ≤ (k : ℚ) := by exact_mod_cast hik
        rw [abs_of_nonneg (by linarith)]
        linarith
      · rw [if_pos hik, if_neg (by omega), add_zero, hik]
        unfold cic01
        rw [abs_of_nonneg (by linarith)]
        rw [max_eq_right (by linarith)]
      · rcases Nat.eq_or_lt_of_le (Nat.succ_le_of_lt hik) with hik1 | hik2
        · rw [if_neg (by omega), if_pos hik1.symm, zero_add, ← hik1]
          unfold cic01
          have hc1 : ((k + 1 : ℕ) : ℚ) = (k : ℚ) + 1 := by push_cast; ring
          rw [hc1]
          rw [show |u - ((k : ℚ) + 1)| = (k : ℚ) + 1 - u by
            rw [abs_of_nonpos (by linarith)]; ring]
          rw [show (1 : ℚ) - ((k : ℚ) + 1 - u) = u - (k : ℚ) by ring]
          rw [max_eq_right (by linarith)]
        · rw [if_neg (by omega), if_neg (by omega), add_zero]
          apply cic01_eq_zero
          have hc1 : (k : ℚ) + 2 ≤ ((i : ℕ) : ℚ) := by
            have hc2 : k + 2 ≤ i := by omega
            exact_mod_cast hc2
          rw [abs_of_nonpos (by linarith)]
          linarith
    rw [Finset.sum_congr rfl hsum, Finset.sum_add_distrib,
      Finset.sum_ite_eq' (Finset.range n) k (fun _ => 1 - (u - (k : ℚ))),
      Finset.sum_ite_eq' (Finset.range n) (k + 1) (fun _ => u - (k : ℚ))]
    simp only [Finset.mem_range, hklt, hlt2, if_pos]
    ring

/-- The cloud-in-cell deposition conserves the total weight when every
particle lies inside the node range of both axes. -/
theorem histogram_cic_2d_total (nP : ℕ) (z x w : Fin nP → ℚ) (nz : ℕ)
    (zmin zmax : ℚ) (nx : ℕ) (xmin xmax : ℚ)
    (hz : ∀ p, 0 ≤ (z p - zmin) / ((zmax - zmin) / ((nz : ℚ) - 1)) ∧
      (z p - zmin) / ((zmax - zmin) / ((nz : ℚ) - 1)) ≤ (nz : ℚ) - 1)
    (hx : ∀ p, 0 ≤ (x p - xmin) / ((xmax - xmin) / ((nx : ℚ) - 1)) ∧
      (x p - xmin) / ((xmax - xmin) / ((nx : ℚ) - 1)) ≤ (nx : ℚ) - 1) :
    gridSum nz nx (histogram_cic_2d nP z x w nz zmin zmax nx xmin xmax) =
      ∑ p : Fin nP, w p := by
  unfold gridSum histogram_cic_2d
  calc ∑ i : Fin nz, ∑ j : Fin nx, ∑ p : Fin nP,
        w p * cic01 ((z p - zmin) / ((zmax - zmin) / ((nz : ℚ) - 1))) (i : ℕ)
            * cic01 ((x p - xmin) / ((xmax - xmin) / ((nx : ℚ) - 1))) (j : ℕ)
      = ∑ p : Fin nP, ∑ i : Fin nz, ∑ j : Fin nx,
          w p * cic01 ((z p - zmin) / ((zmax - zmin) / ((nz : ℚ) - 1))) (i : ℕ)
              * cic01 ((x p - xmin) / ((xmax - xmin) / ((nx : ℚ) - 1))) (j : ℕ) := by
        rw [Finset.sum_congr rfl fun i _ => Finset.sum_comm]
        exact Finset.sum_comm
    _ = ∑ p : Fin nP, w p *
          ((∑ i : Fin nz,
            cic01 ((z p - zmin) / ((zmax - zmin) / ((nz : ℚ) - 1))) (i : ℕ)) *
           (∑ j : Fin nx,
            cic01 ((x p - xmin) / ((xmax - xmin) / ((nx : ℚ) - 1))) (j : ℕ))) := by
        refine Finset.sum_congr rfl fun p _ => ?_
        rw [Finset.sum_mul_sum, Finset.mul_sum]
        refine Finset.sum_congr rfl fun i _ => ?_
        rw [Finset.mul_sum]
        refine Finset.sum_congr rfl fun j _ => ?_
        ring
    _ = ∑ p : Fin nP, w p := by
        refine Finset.sum_congr rfl fun p _ => ?_
        rw [cic01_sum nz _ (hz p).1 (hz p).2, cic01_sum nx _ (hx p).1 (hx p).2]
        ring

/-- C1: for a bunch whose weights sum to a positive value and whose
particles all lie inside the (caller-supplied or derived) grid bounds, the
normalized density grid after cloud-in-cell deposition integrates to one:
`sum(lambda_grid) * dz * dx = 1` with `dz = (zmax-zmin)/(nz-1)`,
`dx = (xmax-xmin)/(nx-1)`. -/
theorem lambda_grid_unit_integral (nP : ℕ) (z x w : Fin nP → ℚ) (nz nx : ℕ)
    (zmin zmax xmin xmax : ℚ) (hnz : 2 ≤ nz) (hnx : 2 ≤ nx)
    (hzw : zmin < zmax) (hxw : xmin < xmax)
    (hzin : ∀ p, zmin ≤ z p ∧ z p ≤ zmax)
    (hxin : ∀ p, xmin ≤ x p ∧ x p ≤ xmax)
    (hw : 0 < ∑ p : Fin nP, w p) :
    gridSum nz nx (lambdaGrid nP z x w nz nx zmin zmax xmin xmax
        ((zmax - zmin) / ((nz : ℚ) - 1)) ((xmax - xmin) / ((nx : ℚ) - 1))) *
      ((zmax - zmin) / ((nz : ℚ) - 1)) * ((xmax - xmin) / ((nx : ℚ) - 1)) = 1 := by
  have hnzq : (2 : ℚ) ≤ (nz : ℚ) := by exact_mod_cast hnz
  have hnxq : (2 : ℚ) ≤ (nx : ℚ) := by exact_mod_cast hnx
  have hdz : (0 : ℚ) < (zmax - zmin) / ((nz : ℚ) - 1) :=
    div_pos (by linarith) (by linarith)
  have hdx : (0 : ℚ) < (xmax - xmin) / ((nx : ℚ) - 1) :=
    div_pos (by linarith) (by linarith)
  have hz : ∀ p, 0 ≤ (z p - zmin) / ((zmax - zmin) / ((nz : ℚ) - 1)) ∧
      (z p - zmin) / ((zmax - zmin) / ((nz : ℚ) - 1)) ≤ (nz : ℚ) - 1 := by
    intro p
    constructor
    · exact div_nonneg (by linarith [(hzin p).1]) (le_of_lt hdz)
    · rw [div_le_iff₀ hdz, mul_comm, div_mul_cancel₀ _ (by linarith : ((nz : ℚ) - 1) ≠ 0)]
      linarith [(hzin p).2]
  have hx : ∀ p, 0 ≤ (x p - xmin) / ((xmax - xmin) / ((nx : ℚ) - 1)) ∧
      (x p - xmin) / ((xmax - xmin) / ((nx : ℚ) - 1)) ≤ (nx : ℚ) - 1 := by
    intro p
    constructor
    · exact div_nonneg (by linarith [(hxin p).1]) (le_of_lt hdx)
    · rw [div_le_iff₀ hdx, mul_comm, div_mul_cancel₀ _ (by linarith : ((nx : ℚ) - 1) ≠ 0)]
      linarith [(hxin p).2]
  have htot := histogram_cic_2d_total nP z x w nz zmin zmax nx xmin xmax hz hx
  have h1 : gridSum nz nx (lambdaGrid nP z x w nz nx zmin zmax xmin xmax
      ((zmax - zmin) / ((nz : ℚ) - 1)) ((xmax - xmin) / ((nx : ℚ) - 1))) =
      gridSum nz nx (histogram_cic_2d nP z x w nz zmin zmax nx xmin xmax) /
        (gridSum nz nx (histogram_cic_2d nP z x w nz zmin zmax nx xmin xmax) *
          ((zmax - zmin) / ((nz : ℚ) - 1)) * ((xmax - xmin) / ((nx : ℚ) - 1))) := by
    unfold lambdaGrid gridSum
    simp [Finset.sum_div]
  rw [h1, htot]
  have hW : (∑ p : Fin nP, w p) ≠ 0 := ne_of_gt hw
  have h2 : (∑ p : Fin nP, w p) /
      ((∑ p : Fin nP, w p) * ((zmax - zmin) / ((nz : ℚ) - 1)) *
        ((xmax - xmin) / ((nx : ℚ) - 1))) *
      ((zmax - zmin) / ((nz : ℚ) - 1)) * ((xmax - xmin) / ((nx : ℚ) - 1)) =
      ((∑ p : Fin nP, w p) * ((zmax - zmin) / ((nz : ℚ) - 1)) *
        ((xmax - xmin) / ((nx : ℚ) - 1))) /
      ((∑ p : Fin nP, w p) * ((zmax - zmin) / ((nz : ℚ) - 1)) *
        ((xmax - xmin) / ((nx : ℚ) - 1))) := by
    ring
  rw [h2, div_self (mul_ne_zero (mul_ne_zero hW (ne_of_gt hdz)) (ne_of_gt hdx))]

/-- Witness for C1 at a concrete one-particle bunch on a 2x2 grid. -/
theorem lambda_grid_unit_integral_witness :
    (2 ≤ 2 ∧ (0 : ℚ) < 1 ∧ 0 < ∑ p : Fin 1, (fun _ => (1 : ℚ)) p) ∧
    gridSum 2 2 (lambdaGrid 1 (fun _ => 0) (fun _ => 0) (fun _ => 1) 2 2 0 1
        0 1 ((1 - 0) / ((2 : ℚ) - 1)) ((1 - 0) / ((2 : ℚ) - 1))) *
      ((1 - 0) / ((2 : ℚ) - 1)) * ((1 - 0) / ((2 : ℚ) - 1)) = 1 :=
  ⟨⟨le_refl 2, by norm_num, by norm_num [Fin.sum_univ_one]⟩,
    lambda_grid_unit_integral 1 (fun _ => 0) (fun _ => 0) (fun _ => 1) 2 2 0 1
      0 1 (le_refl 2) (le_refl 2) (by norm_num) (by norm_num)
      (fun p => by norm_num) (fun p => by norm_num)
      (by norm_num [Fin.sum_univ_one])⟩
